import Mathlib

/-!
Verification of the response store of `app.py` (a small Flask form
collector).  The Python source is shallowly embedded: the JSON text layer is
abstracted into a `Json` value type together with a `FileData` type that
records whether the collection file is missing, holds text that fails to
parse, or holds text parsing to a given `Json` value.  The upload directory
is a list of named directory entries.  Each route handler of `app.py`
becomes a pure state transformer over this model.
-/

universe u

/-- JSON values, as produced by Python's `json` module: `None`/`null`,
booleans, (integer) numbers, strings, arrays and objects.  Objects keep
their key/value pairs in insertion order, as Python dicts do. -/
inductive Json : Type where
  | null : Json
  | bool (b : Bool) : Json
  | num (n : Int) : Json
  | str (s : String) : Json
  | arr (elems : List Json) : Json
  | obj (fields : List (String × Json)) : Json

/-- State of the collection file `responses.json`: the file may be missing
(`open` raises `FileNotFoundError`), may hold text that is not well-formed
JSON (`json.load` raises `JSONDecodeError`), or may hold text that parses
to the JSON value `j`. -/
inductive FileData : Type where
  | missing : FileData
  | malformed (text : String) : FileData
  | wellFormed (j : Json) : FileData

/-- Embeds `json.load` on the collection file: an exception (modelled as
`Except.error`) for a missing or unparsable file, otherwise the parsed
JSON value. -/
def json_load : FileData → Except String Json
  | FileData.missing => Except.error "FileNotFoundError"
  | FileData.malformed _ => Except.error "JSONDecodeError"
  | FileData.wellFormed j => Except.ok j

/-- Embeds `load_responses` (app.py lines 32-39): `json.load` the file,
returning `[]` when `FileNotFoundError` or `JSONDecodeError` is raised.
Any other parsed JSON value (an object, a number, ...) is returned
unchanged, since no exception occurs. -/
def load_responses (fd : FileData) : Json :=
  match json_load fd with
  | Except.ok j => j
  | Except.error _ => Json.arr []

/-- One response record, with exactly the fields built by the POST branch
of `index` (app.py lines 82-93).  `uploaded_file` and `original_filename`
are `None` (here `Option.none`) when no file accompanied the submission. -/
structure Record : Type where
  id : String
  timestamp : String
  question1 : String
  question2 : String
  multiple_option_answer : String
  yes_no_answer : String
  checkbox_answers : List String
  uploaded_file : Option String
  original_filename : Option String
deriving DecidableEq

/-- Python-to-JSON image of an optional string: `None` serializes to
`null`, a string to itself. -/
def optStrToJson : Option String → Json
  | Option.none => Json.null
  | Option.some s => Json.str s

/-- JSON object written by `json.dump` for the `response_data` dict of
app.py lines 82-93, keys in dict insertion order. -/
def Record.toJson (r : Record) : Json :=
  Json.obj
    [("id", Json.str r.id),
     ("timestamp", Json.str r.timestamp),
     ("question1", Json.str r.question1),
     ("question2", Json.str r.question2),
     ("multiple_option_answer", Json.str r.multiple_option_answer),
     ("yes_no_answer", Json.str r.yes_no_answer),
     ("checkbox_answers", Json.arr (r.checkbox_answers.map Json.str)),
     ("uploaded_file", optStrToJson r.uploaded_file),
     ("original_filename", optStrToJson r.original_filename)]

/-- `encodeAll`: the JSON value `json.dump` serializes for a whole list of
records (`save_responses`, app.py lines 41-44, writes exactly this array). -/
def encodeAll (rs : List Record) : Json :=
  Json.arr (rs.map Record.toJson)

/-- Embeds `save_responses` (app.py lines 41-44): after the write, the
collection file holds text parsing to the JSON array of the records. -/
def save_responses (rs : List Record) : FileData :=
  FileData.wellFormed (encodeAll rs)

/-- First field of a JSON object bound to the given key — Python's
`d[key]` / `d.get(key)` for a dict `d` that came from `json.load`
(`Option.none` models a missing key). -/
def lookupField : List (String × Json) → String → Option Json
  | [], _ => Option.none
  | (k, v) :: rest, key => if k = key then Option.some v else lookupField rest key

/-- `response[key]` / `response.get(key)` on a JSON value; `Option.none`
models both a missing key and a non-object receiver. -/
def jsonGet (j : Json) (key : String) : Option Json :=
  match j with
  | Json.obj fields => lookupField fields key
  | _ => Option.none

/-- Reads a required string field back out of a decoded JSON object. -/
def asStr : Option Json → Option String
  | Option.some (Json.str s) => Option.some s
  | _ => Option.none

/-- Reads a nullable string field back out of a decoded JSON object:
`null` decodes to `Option.none`, a string to itself. -/
def asOptStr : Option Json → Option (Option String)
  | Option.some Json.null => Option.some Option.none
  | Option.some (Json.str s) => Option.some (Option.some s)
  | _ => Option.none

/-- Decodes a JSON array of strings. -/
def decodeStrList : List Json → Option (List String)
  | [] => Option.some []
  | Json.str s :: rest =>
    match decodeStrList rest with
    | Option.some l => Option.some (s :: l)
    | Option.none => Option.none
  | _ :: _ => Option.none

/-- Reads the `checkbox_answers` field back out of a decoded JSON object. -/
def asStrList : Option Json → Option (List String)
  | Option.some (Json.arr xs) => decodeStrList xs
  | _ => Option.none

/-- Typed view of one record as recovered from the JSON file: the record
whose fields are the values stored under the nine keys written by
`Record.toJson`, or `Option.none` if the object does not have that shape. -/
def decodeRecord (j : Json) : Option Record :=
  match asStr (jsonGet j "id"), asStr (jsonGet j "timestamp"),
        asStr (jsonGet j "question1"), asStr (jsonGet j "question2"),
        asStr (jsonGet j "multiple_option_answer"),
        asStr (jsonGet j "yes_no_answer"),
        asStrList (jsonGet j "checkbox_answers"),
        asOptStr (jsonGet j "uploaded_file"),
        asOptStr (jsonGet j "original_filename") with
  | Option.some i, Option.some t, Option.some q1, Option.some q2,
    Option.some mo, Option.some yn, Option.some cb, Option.some uf,
    Option.some ofn =>
      Option.some ⟨i, t, q1, q2, mo, yn, cb, uf, ofn⟩
  | _, _, _, _, _, _, _, _, _ => Option.none

/-- Decodes a whole record list from the JSON value `json.load` returned:
the deserialization half of the record codec (`decodeAll` of spec 4.1). -/
def decodeAll (j : Json) : Option (List Record) :=
  match j with
  | Json.arr xs =>
    let rec go : List Json → Option (List Record)
      | [] => Option.some []
      | x :: rest =>
        match decodeRecord x, go rest with
        | Option.some r, Option.some rs => Option.some (r :: rs)
        | _, _ => Option.none
    go xs
  | _ => Option.none

theorem lookupField_cons (k : String) (v : Json) (rest : List (String × Json))
    (key : String) :
    lookupField ((k, v) :: rest) key =
      if k = key then Option.some v else lookupField rest key := rfl

theorem jsonGet_toJson_id (r : Record) :
    jsonGet (Record.toJson r) "id" = Option.some (Json.str r.id) := by
  simp [Record.toJson, jsonGet, lookupField]

theorem jsonGet_toJson_uploaded (r : Record) :
    jsonGet (Record.toJson r) "uploaded_file" =
      Option.some (optStrToJson r.uploaded_file) := by
  simp [Record.toJson, jsonGet, lookupField]

theorem decodeStrList_map (xs : List String) :
    decodeStrList (xs.map Json.str) = Option.some xs := by
  induction xs with
  | nil => rfl
  | cons x rest ih => simp [decodeStrList, ih]

theorem decodeRecord_toJson (r : Record) :
    decodeRecord (Record.toJson r) = Option.some r := by
  obtain ⟨i, t, q1, q2, mo, yn, cb, uf, ofn⟩ := r
  cases uf <;> cases ofn <;>
    simp [decodeRecord, Record.toJson, jsonGet, lookupField, asStr, asOptStr,
      asStrList, optStrToJson, decodeStrList_map]

theorem decodeAll_go_map (rs : List Record) :
    decodeAll.go (rs.map Record.toJson) = Option.some rs := by
  induction rs with
  | nil => rfl
  | cons r rest ih => simp [decodeAll.go, decodeRecord_toJson, ih]

theorem decodeAll_encodeAll (rs : List Record) :
    decodeAll (encodeAll rs) = Option.some rs := by
  simp [decodeAll, encodeAll, decodeAll_go_map rs]

/-- Kind of a directory entry, as distinguished by `os.path.isfile`,
`os.path.islink` and `os.path.isdir` in `clear_responses`. -/
inductive EntryKind : Type where
  | file : EntryKind
  | symlink : EntryKind
  | dir : EntryKind
deriving DecidableEq

/-- One entry of the `uploads` directory: its name within the directory,
its kind, and (for regular files) its byte content. -/
structure Entry : Type where
  name : String
  kind : EntryKind
  content : String
deriving DecidableEq

/-- The application's persistent state: the collection file
`responses.json` and the contents of the `uploads` directory. -/
structure FS : Type where
  responsesFile : FileData
  uploads : List Entry

/-- The relative path `os.path.join(UPLOAD_FOLDER, e.name)` of an entry of
the uploads directory, where UPLOAD_FOLDER is the string "uploads". -/
def entryPath (e : Entry) : String := "uploads/" ++ e.name

/-- `os.path.exists p` restricted to the modelled filesystem (the uploads
directory): true iff some entry's path is `p`. -/
def pathExists (ups : List Entry) (p : String) : Bool :=
  ups.any (fun e => entryPath e = p)

/-- `os.unlink p` wrapped in the `try/except` of app.py lines 158-162:
removes the entry at path `p` when it is a file or a symlink; unlinking a
directory raises, the exception is caught and logged, and the entry stays. -/
def tryUnlink (ups : List Entry) (p : String) : List Entry :=
  ups.filter (fun e => ¬ (entryPath e = p ∧ ¬ e.kind = EntryKind.dir))

/-- An uploaded file as Flask hands it to the handler: the client-supplied
filename and the raw bytes. -/
structure UploadedFile : Type where
  filename : String
  content : String
deriving DecidableEq

/-- A POST submission after Flask's form parsing: the four text fields as
`request.form.get(key, '')` returns them (a missing field is the empty
string), the checkbox list from `request.form.getlist`, and the optional
file part from `request.files.get` under the key "file_upload". -/
structure Submission : Type where
  question1 : String
  question2 : String
  multiple_option : String
  yes_no_question : String
  checkbox_options : List String
  file_upload : Option UploadedFile
deriving DecidableEq

/-- `uploaded_file.save(file_path)`: (over)writes a regular file named
`name` with the given bytes in the uploads directory. -/
def writeUpload (ups : List Entry) (name content : String) : List Entry :=
  ups.filter (fun e => ¬ e.name = name) ++ [⟨name, EntryKind.file, content⟩]

/-- Python's `str.strip()` with no argument: remove leading and trailing
whitespace. -/
def pystrip (s : String) : String :=
  String.mk
    (((s.data.dropWhile Char.isWhitespace).reverse.dropWhile
        Char.isWhitespace).reverse)

/-- True for the characters the sanitizer keeps: ASCII letters and digits,
underscore, dot, dash. -/
def keepChar (c : Char) : Bool :=
  c.isAlphanum || c == '_' || c == '.' || c == '-'

/-- Splits a character list into maximal whitespace-free words, dropping
empty pieces — Python's `str.split()` with no separator argument. -/
def wordsAux : List Char → List Char → List (List Char)
  | [], cur => if cur.isEmpty then [] else [cur.reverse]
  | c :: rest, cur =>
    if c.isWhitespace then
      if cur.isEmpty then wordsAux rest [] else cur.reverse :: wordsAux rest []
    else wordsAux rest (c :: cur)

/-- True for the characters Python's `str.strip("._")` removes at either
end. -/
def isDotUnderscore (c : Char) : Bool := c == '.' || c == '_'

/-- `str.strip("._")`: drops leading and trailing dots and underscores. -/
def stripEnds (cs : List Char) : List Char :=
  ((cs.dropWhile isDotUnderscore).reverse.dropWhile isDotUnderscore).reverse

/-- Modelled from werkzeug's `secure_filename` (an external dependency of
app.py, not part of this repository's sources): replace the path separator
`/` by a space, split on whitespace and rejoin with `_`, drop every
character outside `[A-Za-z0-9_.-]`, and strip leading/trailing `.` and
`_`.  The initial Unicode NFKD/ASCII projection of the original is
omitted; the character filter already restricts the result to ASCII.  In
particular `secure_filename ".." = ""`. -/
def secure_filename (filename : String) : String :=
  let replaced := filename.data.map (fun c => if c = '/' then ' ' else c)
  let joined := List.intercalate ['_'] (wordsAux replaced [])
  String.mk (stripEnds (joined.filter keepChar))

/-- The `response_data` dict of app.py lines 82-93: text fields are
`.strip()`ped, `uploaded_file` is the path the upload step produced, and
`original_filename` is `uploaded_file.filename if uploaded_file else None`
(a `FileStorage` with an empty filename is falsy in Python). -/
def mkRecord (response_id timestamp : String) (sub : Submission)
    (file_path : Option String) : Record :=
  ⟨response_id, timestamp,
   pystrip sub.question1, pystrip sub.question2,
   pystrip sub.multiple_option, pystrip sub.yes_no_question,
   sub.checkbox_options,
   file_path,
   match sub.file_upload with
   | Option.none => Option.none
   | Option.some f => if f.filename = "" then Option.none else Option.some f.filename⟩

/-- The upload step of the POST branch of `index` (app.py lines 69-79):
nothing is stored when no file part was submitted or the submitted
filename is empty; otherwise the bytes are saved in the uploads directory
under `response_id ++ "_" ++ secure_filename filename` and the relative
path of that file is returned.  `writeFails` injects the environment
behavior of `uploaded_file.save` raising an `OSError`, which propagates
(`Except.error`). -/
def handle_upload (response_id : String) (upl : Option UploadedFile)
    (writeFails : Bool) (ups : List Entry) :
    Except Unit (Option String × List Entry) :=
  match upl with
  | Option.none => Except.ok (Option.none, ups)
  | Option.some f =>
    if f.filename = "" then Except.ok (Option.none, ups)
    else
      let unique_filename := response_id ++ "_" ++ secure_filename f.filename
      if writeFails then Except.error ()
      else
        Except.ok (Option.some ("uploads/" ++ unique_filename),
          writeUpload ups unique_filename f.content)

/-- The POST branch of `index` (app.py lines 55-101).  `response_id` and
`timestamp` stand for `str(uuid.uuid4())` and the formatted
`datetime.now()`.  The returned flag is true when the handler completes
with a redirect; it is false when an exception escapes: either the upload
write failed (nothing else runs, no record is appended), or
`all_responses.append` raised `AttributeError` because the collection file
held well-formed JSON that is not an array (the uploaded file, if any, was
already written at that point). -/
def index_post (response_id timestamp : String) (sub : Submission)
    (writeFails : Bool) (fs : FS) : FS × Bool :=
  match handle_upload response_id sub.file_upload writeFails fs.uploads with
  | Except.error _ => (fs, false)
  | Except.ok (file_path, ups) =>
    let response_data := mkRecord response_id timestamp sub file_path
    match load_responses fs.responsesFile with
    | Json.arr xs =>
      (⟨FileData.wellFormed (Json.arr (xs ++ [response_data.toJson])), ups⟩, true)
    | _ => (⟨fs.responsesFile, ups⟩, false)

/-- Result of a straight-line Python block that may raise: either the value
it computed, or an uncaught exception together with the uploads-directory
state at the moment it was raised. -/
inductive PyRes (α : Type) : Type where
  | ok (val : α) : PyRes α
  | exn (uploadsNow : List Entry) : PyRes α

/-- Python truthiness of a JSON-decoded value: `None`, `False`, `0`, empty
string/list/dict are falsy. -/
def jsonTruthy : Json → Bool
  | Json.null => false
  | Json.bool b => b
  | Json.num n => ¬ n = 0
  | Json.str s => ¬ s = ""
  | Json.arr xs => ¬ xs.isEmpty
  | Json.obj fields => ¬ fields.isEmpty

/-- The per-match cleanup of `delete_response` (app.py lines 157-162):
the test `response.get("uploaded_file") and os.path.exists(...)` and then
`os.unlink` inside a `try/except` that swallows failures.  A truthy
non-string `uploaded_file` would make `os.path.exists` raise `TypeError`,
which is outside the inner `try` and escapes. -/
def cleanupStep (j : Json) (ups : List Entry) : PyRes (List Entry) :=
  match jsonGet j "uploaded_file" with
  | Option.none => PyRes.ok ups
  | Option.some v =>
    if jsonTruthy v then
      match v with
      | Json.str p => PyRes.ok (if pathExists ups p then tryUnlink ups p else ups)
      | _ => PyRes.exn ups
    else PyRes.ok ups

/-- The `for response in all_responses` loop of `delete_response` (app.py
lines 153-165): returns the kept elements, whether a match was found, and
the uploads directory after the per-match file cleanups.  Indexing "id"
on a non-object or an object without an `id` key raises (`PyRes.exn`); a
non-string `id` value simply compares unequal to the string
`response_id`. -/
def delete_loop (response_id : String) :
    List Json → List Entry → PyRes (List Json × Bool × List Entry)
  | [], ups => PyRes.ok ([], false, ups)
  | j :: rest, ups =>
    match jsonGet j "id" with
    | Option.none => PyRes.exn ups
    | Option.some idv =>
      match idv with
      | Json.str s =>
        if s = response_id then
          match cleanupStep j ups with
          | PyRes.ok ups1 =>
            match delete_loop response_id rest ups1 with
            | PyRes.ok (kept, _, ups2) => PyRes.ok (kept, true, ups2)
            | PyRes.exn u => PyRes.exn u
          | PyRes.exn u => PyRes.exn u
        else
          match delete_loop response_id rest ups with
          | PyRes.ok (kept, found, ups2) => PyRes.ok (j :: kept, found, ups2)
          | PyRes.exn u => PyRes.exn u
      | _ =>
        match delete_loop response_id rest ups with
        | PyRes.ok (kept, found, ups2) => PyRes.ok (j :: kept, found, ups2)
        | PyRes.exn u => PyRes.exn u

/-- The `delete_response` route (app.py lines 144-172).  The second
component is `Option.some found` when the handler completes with a
redirect (`found` is what the flash message reports), and `Option.none`
when an uncaught exception escapes.  Iterating a non-list value raises on
its first element before any side effect, so the state is returned
unchanged in that branch.  The collection file is rewritten only when a
match was found. -/
def delete_response (response_id : String) (fs : FS) : FS × Option Bool :=
  match load_responses fs.responsesFile with
  | Json.arr xs =>
    match delete_loop response_id xs fs.uploads with
    | PyRes.ok (kept, found, ups2) =>
      if found then
        (⟨FileData.wellFormed (Json.arr kept), ups2⟩, Option.some true)
      else (⟨fs.responsesFile, ups2⟩, Option.some false)
    | PyRes.exn u => (⟨fs.responsesFile, u⟩, Option.none)
  | _ => (fs, Option.none)

/-- The `clear_responses` route (app.py lines 115-142): write `[]` to the
collection file, then for every entry of the uploads directory unlink it
when it is a file or a symlink and pass when it is a directory. -/
def clear_responses (fs : FS) : FS :=
  ⟨FileData.wellFormed (Json.arr []),
   fs.uploads.filter (fun e =>
     if e.kind = EntryKind.file ∨ e.kind = EntryKind.symlink then false else true)⟩

/-- Typed restatement of `cleanupStep` on a well-formed record: delete the
referenced path when the record carries a nonempty `uploaded_file` path
that exists. -/
def recordFileCleanup (r : Record) (ups : List Entry) : List Entry :=
  match r.uploaded_file with
  | Option.none => ups
  | Option.some p =>
    if p = "" then ups
    else if pathExists ups p then tryUnlink ups p else ups

/-- The uploads directory after `delete_loop` has processed a list of
well-formed records: each matching record's cleanup is applied in order. -/
def deleteFilesOf (response_id : String) : List Record → List Entry → List Entry
  | [], ups => ups
  | r :: rest, ups =>
    if r.id = response_id then
      deleteFilesOf response_id rest (recordFileCleanup r ups)
    else deleteFilesOf response_id rest ups

theorem cleanupStep_toJson (r : Record) (ups : List Entry) :
    cleanupStep (Record.toJson r) ups = PyRes.ok (recordFileCleanup r ups) := by
  cases h : r.uploaded_file with
  | none =>
    simp [cleanupStep, jsonGet_toJson_uploaded, h, optStrToJson, jsonTruthy,
      recordFileCleanup]
  | some p =>
    by_cases hp : p = "" <;>
      simp [cleanupStep, jsonGet_toJson_uploaded, h, optStrToJson, jsonTruthy,
        recordFileCleanup, hp]

theorem delete_loop_records (response_id : String) (rs : List Record)
    (ups : List Entry) :
    delete_loop response_id (rs.map Record.toJson) ups =
      PyRes.ok ((rs.filter (fun r => ¬ r.id = response_id)).map Record.toJson,
        rs.any (fun r => r.id = response_id),
        deleteFilesOf response_id rs ups) := by
  induction rs generalizing ups with
  | nil => rfl
  | cons r rest ih =>
    by_cases hid : r.id = response_id <;>
      simp [delete_loop, jsonGet_toJson_id, hid, cleanupStep_toJson, ih,
        deleteFilesOf]

theorem deleteFilesOf_no_match (response_id : String) (rs : List Record)
    (ups : List Entry) (h : ∀ r ∈ rs, ¬ r.id = response_id) :
    deleteFilesOf response_id rs ups = ups := by
  induction rs with
  | nil => rfl
  | cons r rest ih =>
    have hr := h r (List.mem_cons_self r rest)
    simp [deleteFilesOf, hr]
    exact ih (fun x hx => h x (List.mem_cons_of_mem r hx))

theorem deleteFilesOf_unique (response_id : String) (rs : List Record)
    (ups : List Entry) (r0 : Record) (h0 : r0 ∈ rs) (hid : r0.id = response_id)
    (huniq : (rs.filter (fun r => r.id = response_id)).length = 1) :
    deleteFilesOf response_id rs ups = recordFileCleanup r0 ups := by
  induction rs generalizing ups with
  | nil => cases h0
  | cons r rest ih =>
    by_cases hr : r.id = response_id
    · have hnomatch : ∀ x ∈ rest, ¬ x.id = response_id := by
        have h1 := huniq
        simp [List.filter_cons, hr] at h1
        exact h1
      have hr0 : r0 = r := by
        rcases List.mem_cons.mp h0 with h | h
        · exact h
        · exact absurd hid (hnomatch r0 h)
      subst hr0
      simp [deleteFilesOf, hr]
      exact deleteFilesOf_no_match response_id rest _ hnomatch
    · have h0' : r0 ∈ rest := by
        rcases List.mem_cons.mp h0 with h | h
        · exfalso
          apply hr
          rw [← h]
          exact hid
        · exact h
      have huniq' : (rest.filter (fun r => r.id = response_id)).length = 1 := by
        simpa [List.filter_cons, hr] using huniq
      simp [deleteFilesOf, hr]
      exact ih ups h0' huniq'

theorem eq_of_name_eq_of_nodup (ups : List Entry)
    (hnodup : (ups.map Entry.name).Nodup) (e e' : Entry)
    (he : e ∈ ups) (he' : e' ∈ ups) (hn : e.name = e'.name) : e = e' := by
  induction ups with
  | nil => cases he
  | cons a l ih =>
    rw [List.map_cons, List.nodup_cons] at hnodup
    obtain ⟨ha, hl⟩ := hnodup
    rcases List.mem_cons.mp he with rfl | he2
    · rcases List.mem_cons.mp he' with rfl | he2'
      · rfl
      · exfalso
        apply ha
        rw [hn]
        exact List.mem_map_of_mem Entry.name he2'
    · rcases List.mem_cons.mp he' with rfl | he2'
      · exfalso
        apply ha
        rw [← hn]
        exact List.mem_map_of_mem Entry.name he2
      · exact ih hl he2 he2'

theorem recordFileCleanup_removes (r0 : Record) (ups : List Entry) (p : String)
    (hup : r0.uploaded_file = Option.some p)
    (e : Entry) (he : e ∈ ups) (hpath : entryPath e = p)
    (hkind : ¬ e.kind = EntryKind.dir)
    (hnodup : (ups.map Entry.name).Nodup) :
    pathExists (recordFileCleanup r0 ups) p = false := by
  have hpne : ¬ p = "" := by
    intro hp
    rw [hp] at hpath
    have hd := congrArg String.data hpath
    simp [entryPath, String.data_append] at hd
  have hex : pathExists ups p = true := by
    simp [pathExists, List.any_eq_true]
    exact ⟨e, he, hpath⟩
  simp only [recordFileCleanup, hup, hpne, if_false, hex, if_true, ite_false,
    ite_true]
  have hred : recordFileCleanup r0 ups = tryUnlink ups p := by
    simp [recordFileCleanup, hup, hpne, hex]
  rw [← hred]
  rw [hred]
  simp only [pathExists, tryUnlink, List.any_eq_false]
  intro e' he'
  rw [List.mem_filter] at he'
  obtain ⟨hmem', hcond'⟩ := he'
  intro hpath'
  have hpe' : entryPath e' = p := by simpa using hpath'
  have hname : e'.name = e.name := by
    have hd := congrArg String.data (hpe'.trans hpath.symm)
    simp only [entryPath, String.data_append] at hd
    exact String.ext (List.append_cancel_left hd)
  have hee : e' = e := eq_of_name_eq_of_nodup ups hnodup e' e hmem' he hname
  simp only [decide_eq_true_eq] at hcond'
  apply hcond'
  constructor
  · exact hpe'
  · rw [hee]
    exact hkind

/-- `os.path.isabs` on POSIX: a path is absolute iff it starts with `/`. -/
def isAbsolutePath (p : String) : Bool := p.data.head? = Option.some '/'

theorem handle_upload_total (response_id : String) (upl : Option UploadedFile)
    (ups : List Entry) :
    ∃ fp ups2, handle_upload response_id upl false ups = Except.ok (fp, ups2) := by
  cases upl with
  | none => exact ⟨Option.none, ups, rfl⟩
  | some f =>
    by_cases hf : f.filename = ""
    · exact ⟨Option.none, ups, by simp [handle_upload, hf]⟩
    · exact ⟨Option.some ("uploads/" ++ (response_id ++ "_" ++ secure_filename f.filename)),
        writeUpload ups (response_id ++ "_" ++ secure_filename f.filename) f.content,
        by simp [handle_upload, hf]⟩

/-- Claim C1, amended: `load_responses` never raises; when the collection
file is missing or holds text that fails to parse as JSON it returns the
empty array.  (The original claim also asserted the empty array for
well-formed JSON that is not an array, but `json.load` succeeds there and
the parsed value is returned unchanged — see `C1_counterexample`.) -/
theorem C1_load_never_fails :
    (∀ fd : FileData,
      (fd = FileData.missing ∨ ∃ s, fd = FileData.malformed s) →
        load_responses fd = Json.arr []) ∧
    (∀ j : Json, load_responses (FileData.wellFormed j) = j) := by
  constructor
  · rintro fd (rfl | ⟨s, rfl⟩) <;> rfl
  · intro j
    rfl

/-- Claim C1, counterexample: a collection file holding the well-formed
JSON object text is not a well-formed JSON array, yet `load_responses`
returns the parsed object rather than the empty sequence. -/
theorem C1_counterexample :
    (¬ ∃ xs, FileData.wellFormed (Json.obj []) = FileData.wellFormed (Json.arr xs)) ∧
    ¬ load_responses (FileData.wellFormed (Json.obj [])) = Json.arr [] := by
  constructor
  · rintro ⟨xs, h⟩
    injection h with h2
    exact Json.noConfusion h2
  · intro h
    exact Json.noConfusion h

/-- Witness for `C1_load_never_fails` at the missing file and at a
concrete unparsable text. -/
theorem C1_witness :
    load_responses FileData.missing = Json.arr [] ∧
    load_responses (FileData.malformed "not json") = Json.arr [] :=
  ⟨C1_load_never_fails.1 FileData.missing (Or.inl rfl),
   C1_load_never_fails.1 (FileData.malformed "not json")
     (Or.inr ⟨"not json", rfl⟩)⟩

/-- Claim C6: decoding the encoding of any record sequence yields it back
exactly, both at the codec level and through an actual
`save_responses`/`load_responses` round trip of the collection file. -/
theorem C6_codec_roundtrip (rs : List Record) :
    decodeAll (encodeAll rs) = Option.some rs ∧
    decodeAll (load_responses (save_responses rs)) = Option.some rs := by
  refine ⟨decodeAll_encodeAll rs, ?_⟩
  simp [load_responses, save_responses, json_load, decodeAll_encodeAll]

/-- Claim C2: a successful POST submission appends exactly one record: the
previous array is preserved unchanged at the front, the new JSON object is
the last element, and decoding that object recovers every field of the
record exactly (empty strings and absent optional fields included). -/
theorem C2_append_then_load (response_id timestamp : String) (sub : Submission)
    (fs : FS) (xs : List Json)
    (hload : load_responses fs.responsesFile = Json.arr xs) :
    ∃ fp ups,
      handle_upload response_id sub.file_upload false fs.uploads =
        Except.ok (fp, ups) ∧
      index_post response_id timestamp sub false fs =
        (⟨FileData.wellFormed (Json.arr
            (xs ++ [(mkRecord response_id timestamp sub fp).toJson])), ups⟩,
         true) ∧
      load_responses
          (index_post response_id timestamp sub false fs).1.responsesFile =
        Json.arr (xs ++ [(mkRecord response_id timestamp sub fp).toJson]) ∧
      decodeRecord ((mkRecord response_id timestamp sub fp).toJson) =
        Option.some (mkRecord response_id timestamp sub fp) := by
  obtain ⟨fp, ups, hok⟩ := handle_upload_total response_id sub.file_upload fs.uploads
  have h2 : index_post response_id timestamp sub false fs =
      (⟨FileData.wellFormed (Json.arr
          (xs ++ [(mkRecord response_id timestamp sub fp).toJson])), ups⟩,
       true) := by
    simp [index_post, hok, hload]
  refine ⟨fp, ups, hok, h2, ?_, decodeRecord_toJson _⟩
  rw [h2]
  rfl

/-- Witness for `C2_append_then_load`: a concrete no-file submission into
an empty store appends exactly the stripped record. -/
theorem C2_witness :
    index_post "r1" "t0" ⟨" A ", "B", "opt2", "yes", ["c1", "c3"], Option.none⟩
        false ⟨FileData.wellFormed (Json.arr []), []⟩ =
      (⟨FileData.wellFormed (Json.arr
          [(Record.mk "r1" "t0" "A" "B" "opt2" "yes" ["c1", "c3"]
              Option.none Option.none).toJson]), []⟩,
       true) := by
  obtain ⟨fp, ups, hok, hmain, hload2, hdec⟩ :=
    C2_append_then_load "r1" "t0"
      ⟨" A ", "B", "opt2", "yes", ["c1", "c3"], Option.none⟩
      ⟨FileData.wellFormed (Json.arr []), []⟩ [] rfl
  have h0 : (Except.ok (Option.none, ([] : List Entry)) :
      Except Unit (Option String × List Entry)) = Except.ok (fp, ups) :=
    Eq.trans (Eq.symm rfl) hok
  injection h0 with h1
  injection h1 with h2 h3
  subst h2
  subst h3
  exact hmain

/-- Claim C8: when the write of the uploaded file fails, the failure
propagates (the handler does not complete) and nothing is appended — the
whole state, in particular the collection file, is unchanged. -/
theorem C8_upload_write_failure (response_id timestamp : String)
    (sub : Submission) (fs : FS) (f : UploadedFile)
    (hf : sub.file_upload = Option.some f) (hne : ¬ f.filename = "") :
    index_post response_id timestamp sub true fs = (fs, false) := by
  simp [index_post, handle_upload, hf, hne]

/-- Claim C7: the upload step stores nothing exactly when no file part was
submitted or its filename is empty; otherwise it writes the bytes under
the name `response_id ++ "_" ++ secure_filename filename` in the uploads
directory and returns that relative path; distinct record ids never
collide on the stored name, even for equal original filenames. -/
theorem C7_upload_coordinator :
    (∀ (response_id : String) (upl : Option UploadedFile) (ups : List Entry),
      handle_upload response_id upl false ups = Except.ok (Option.none, ups) ↔
        (upl = Option.none ∨ ∃ f, upl = Option.some f ∧ f.filename = "")) ∧
    (∀ (response_id : String) (f : UploadedFile) (ups : List Entry),
      ¬ f.filename = "" →
        handle_upload response_id (Option.some f) false ups =
          Except.ok
            (Option.some
              ("uploads/" ++ (response_id ++ "_" ++ secure_filename f.filename)),
             writeUpload ups (response_id ++ "_" ++ secure_filename f.filename)
               f.content) ∧
        Entry.mk (response_id ++ "_" ++ secure_filename f.filename)
            EntryKind.file f.content ∈
          writeUpload ups (response_id ++ "_" ++ secure_filename f.filename)
            f.content) ∧
    (∀ rid1 rid2 name : String, ¬ rid1 = rid2 →
      ¬ (rid1 ++ "_" ++ name = rid2 ++ "_" ++ name)) ∧
    (∀ (response_id : String) (upl : Option UploadedFile)
        (ups ups2 : List Entry) (fp : String),
      handle_upload response_id upl false ups = Except.ok (Option.some fp, ups2) →
        isAbsolutePath fp = false) := by
  refine ⟨?_, ?_, ?_, ?_⟩
  · intro response_id upl ups
    cases upl with
    | none => simp [handle_upload]
    | some f =>
      by_cases hf : f.filename = "" <;> simp [handle_upload, hf]
  · intro response_id f ups hf
    refine ⟨by simp [handle_upload, hf], ?_⟩
    simp [writeUpload]
  · intro rid1 rid2 name hne he
    apply hne
    apply String.ext
    have hd := congrArg String.data he
    simp only [String.data_append] at hd
    exact List.append_cancel_right (List.append_cancel_right hd)
  · intro response_id upl ups ups2 fp h
    cases upl with
    | none => simp [handle_upload] at h
    | some f =>
      by_cases hf : f.filename = ""
      · simp [handle_upload, hf] at h
      · simp [handle_upload, hf] at h
        obtain ⟨hfp, _⟩ := h
        subst hfp
        simp [isAbsolutePath, String.data_append]

/-- Witness for `C7_upload_coordinator`: a concrete upload is stored at
`uploads/r1_a.txt`, and two distinct ids with the same filename yield
distinct stored names. -/
theorem C7_witness :
    handle_upload "r1" (Option.some ⟨"a.txt", "data"⟩) false [] =
      Except.ok (Option.some "uploads/r1_a.txt",
        [Entry.mk "r1_a.txt" EntryKind.file "data"]) ∧
    ¬ ("r1" ++ "_" ++ "a.txt" = "r2" ++ "_" ++ "a.txt") := by
  constructor
  · have h := (C7_upload_coordinator.2.1 "r1" ⟨"a.txt", "data"⟩ [] (by decide)).1
    rw [h]
    rfl
  · exact C7_upload_coordinator.2.2.1 "r1" "r2" "a.txt" (by decide)

/-- Claim C10: the empty-filename no-op test uses the raw submitted
filename; a non-empty filename that sanitizes to the empty string is still
stored, under the name `response_id ++ "_"`, and the persisted record's
uploaded-file path is present. -/
theorem C10_empty_sanitized (response_id timestamp : String) (sub : Submission)
    (fs : FS) (f : UploadedFile) (xs : List Json)
    (hf : sub.file_upload = Option.some f)
    (hne : ¬ f.filename = "")
    (hsan : secure_filename f.filename = "")
    (hload : load_responses fs.responsesFile = Json.arr xs) :
    handle_upload response_id sub.file_upload false fs.uploads =
      Except.ok (Option.some ("uploads/" ++ (response_id ++ "_")),
        writeUpload fs.uploads (response_id ++ "_") f.content) ∧
    Entry.mk (response_id ++ "_") EntryKind.file f.content ∈
      (index_post response_id timestamp sub false fs).1.uploads ∧
    (mkRecord response_id timestamp sub
        (Option.some ("uploads/" ++ (response_id ++ "_")))).uploaded_file =
      Option.some ("uploads/" ++ (response_id ++ "_")) ∧
    index_post response_id timestamp sub false fs =
      (⟨FileData.wellFormed (Json.arr (xs ++
          [(mkRecord response_id timestamp sub
              (Option.some ("uploads/" ++ (response_id ++ "_")))).toJson])),
        writeUpload fs.uploads (response_id ++ "_") f.content⟩,
       true) := by
  have hup : handle_upload response_id sub.file_upload false fs.uploads =
      Except.ok (Option.some ("uploads/" ++ (response_id ++ "_")),
        writeUpload fs.uploads (response_id ++ "_") f.content) := by
    simp [handle_upload, hf, hne, hsan]
  have hmain : index_post response_id timestamp sub false fs =
      (⟨FileData.wellFormed (Json.arr (xs ++
          [(mkRecord response_id timestamp sub
              (Option.some ("uploads/" ++ (response_id ++ "_")))).toJson])),
        writeUpload fs.uploads (response_id ++ "_") f.content⟩,
       true) := by
    simp [index_post, hup, hload]
  refine ⟨hup, ?_, rfl, hmain⟩
  rw [hmain]
  simp [writeUpload]

/-- Witness for `C10_empty_sanitized`: the filename `".."` is non-empty
but sanitizes to the empty string; the file is stored as `r1_` and the
record's path is `uploads/r1_`. -/
theorem C10_witness :
    index_post "r1" "t0" ⟨"", "", "", "", [], Option.some ⟨"..", "data"⟩⟩
        false ⟨FileData.wellFormed (Json.arr []), []⟩ =
      (⟨FileData.wellFormed (Json.arr
          [(Record.mk "r1" "t0" "" "" "" "" [] (Option.some "uploads/r1_")
              (Option.some "..")).toJson]),
        [Entry.mk "r1_" EntryKind.file "data"]⟩,
       true) := by
  have h :=
    (C10_empty_sanitized "r1" "t0" ⟨"", "", "", "", [], Option.some ⟨"..", "data"⟩⟩
      ⟨FileData.wellFormed (Json.arr []), []⟩ ⟨"..", "data"⟩ [] rfl (by decide)
      (by decide) rfl).2.2.2
  exact h

/-- Claim C3: deleting an id that occurs in exactly one stored record
reports success, writes back exactly the other records in their original
order, applies the per-match file cleanup, and removes the matched
record's uploaded file from the uploads directory when it existed there
as a non-directory entry (directory listings have distinct names). -/
theorem C3_delete_present (response_id : String) (rs : List Record) (fs : FS)
    (hfile : fs.responsesFile = save_responses rs)
    (huniq : (rs.filter (fun r => r.id = response_id)).length = 1) :
    (delete_response response_id fs).2 = Option.some true ∧
    load_responses (delete_response response_id fs).1.responsesFile =
      encodeAll (rs.filter (fun r => ¬ r.id = response_id)) ∧
    (delete_response response_id fs).1.uploads =
      deleteFilesOf response_id rs fs.uploads ∧
    (∀ r0 ∈ rs, r0.id = response_id →
      ∀ p, r0.uploaded_file = Option.some p →
        ∀ e ∈ fs.uploads, entryPath e = p → ¬ e.kind = EntryKind.dir →
          (fs.uploads.map Entry.name).Nodup →
            pathExists (delete_response response_id fs).1.uploads p = false) := by
  have hany : rs.any (fun r => r.id = response_id) = true := by
    have hne : rs.filter (fun r => r.id = response_id) ≠ [] := by
      intro h
      rw [h] at huniq
      cases huniq
    obtain ⟨x, hx⟩ := List.exists_mem_of_ne_nil _ hne
    rw [List.mem_filter] at hx
    simp [List.any_eq_true]
    exact ⟨x, hx.1, by simpa using hx.2⟩
  have hdel : delete_response response_id fs =
      (⟨FileData.wellFormed (Json.arr
          ((rs.filter (fun r => ¬ r.id = response_id)).map Record.toJson)),
        deleteFilesOf response_id rs fs.uploads⟩,
       Option.some true) := by
    simp [delete_response, hfile, save_responses, load_responses, json_load,
      encodeAll, delete_loop_records, hany]
  refine ⟨by rw [hdel], by rw [hdel]; rfl, by rw [hdel], ?_⟩
  intro r0 hr0 hid p hup e he hpath hkind hnodup
  rw [hdel]
  show pathExists (deleteFilesOf response_id rs fs.uploads) p = false
  rw [deleteFilesOf_unique response_id rs fs.uploads r0 hr0 hid huniq]
  exact recordFileCleanup_removes r0 fs.uploads p hup e he hpath hkind hnodup

/-- Witness for `C3_delete_present`: a store with one record whose file
exists; deletion reports success, empties the store, and removes the
file. -/
theorem C3_witness :
    (delete_response "r1"
        ⟨save_responses [⟨"r1", "t0", "", "", "", "", [],
            Option.some "uploads/r1_a.txt", Option.some "a.txt"⟩],
          [Entry.mk "r1_a.txt" EntryKind.file "data"]⟩).2 = Option.some true ∧
    load_responses
        (delete_response "r1"
          ⟨save_responses [⟨"r1", "t0", "", "", "", "", [],
              Option.some "uploads/r1_a.txt", Option.some "a.txt"⟩],
            [Entry.mk "r1_a.txt" EntryKind.file "data"]⟩).1.responsesFile =
      encodeAll [] ∧
    pathExists
        (delete_response "r1"
          ⟨save_responses [⟨"r1", "t0", "", "", "", "", [],
              Option.some "uploads/r1_a.txt", Option.some "a.txt"⟩],
            [Entry.mk "r1_a.txt" EntryKind.file "data"]⟩).1.uploads
        "uploads/r1_a.txt" = false := by
  have h := C3_delete_present "r1"
    [⟨"r1", "t0", "", "", "", "", [],
        Option.some "uploads/r1_a.txt", Option.some "a.txt"⟩]
    ⟨save_responses [⟨"r1", "t0", "", "", "", "", [],
        Option.some "uploads/r1_a.txt", Option.some "a.txt"⟩],
      [Entry.mk "r1_a.txt" EntryKind.file "data"]⟩
    rfl (by decide)
  refine ⟨h.1, h.2.1, ?_⟩
  exact h.2.2.2
    ⟨"r1", "t0", "", "", "", "", [],
        Option.some "uploads/r1_a.txt", Option.some "a.txt"⟩
    (by simp) rfl "uploads/r1_a.txt" rfl
    (Entry.mk "r1_a.txt" EntryKind.file "data") (by simp)
    (by decide) (by decide) (by simp)

/-- Claim C4: deleting an id present in no stored record reports a
not-found outcome and leaves the whole state unchanged — in particular the
collection file is not rewritten and the uploads directory is untouched. -/
theorem C4_delete_absent (response_id : String) (rs : List Record) (fs : FS)
    (hfile : fs.responsesFile = save_responses rs)
    (habs : ∀ r ∈ rs, ¬ r.id = response_id) :
    delete_response response_id fs = (fs, Option.some false) := by
  obtain ⟨rf, ups⟩ := fs
  have hrf : rf = save_responses rs := hfile
  subst hrf
  have hany : rs.any (fun r => r.id = response_id) = false := by
    simp [List.any_eq_false]
    exact habs
  simp [delete_response, save_responses, load_responses, json_load, encodeAll,
    delete_loop_records, hany, deleteFilesOf_no_match response_id rs ups habs]

/-- Witness for `C4_delete_absent`: deleting an unknown id from a
one-record store returns false and changes nothing. -/
theorem C4_witness :
    delete_response "zzz"
        ⟨save_responses [⟨"r1", "t0", "a", "b", "c", "d", ["e"],
            Option.none, Option.none⟩], []⟩ =
      (⟨save_responses [⟨"r1", "t0", "a", "b", "c", "d", ["e"],
          Option.none, Option.none⟩], []⟩,
       Option.some false) :=
  C4_delete_absent "zzz"
    [⟨"r1", "t0", "a", "b", "c", "d", ["e"], Option.none, Option.none⟩]
    ⟨save_responses [⟨"r1", "t0", "a", "b", "c", "d", ["e"],
        Option.none, Option.none⟩], []⟩
    rfl (by decide)

/-- Claim C5: `clear_responses` leaves the collection loading as the empty
array and sweeps the uploads directory: every file and symlink entry is
deleted whether or not any record references it, and directory entries are
skipped and survive. -/
theorem C5_clear_all (fs : FS) :
    load_responses (clear_responses fs).responsesFile = Json.arr [] ∧
    (clear_responses fs).uploads =
      fs.uploads.filter (fun e => e.kind = EntryKind.dir) ∧
    (∀ e ∈ (clear_responses fs).uploads,
      ¬ e.kind = EntryKind.file ∧ ¬ e.kind = EntryKind.symlink) ∧
    (∀ e ∈ fs.uploads, e.kind = EntryKind.dir →
      e ∈ (clear_responses fs).uploads) := by
  refine ⟨rfl, ?_, ?_, ?_⟩
  · apply List.filter_congr
    intro e _
    cases hk : e.kind <;> simp [hk]
  · intro e he
    rw [clear_responses] at he
    simp only [List.mem_filter] at he
    obtain ⟨_, hcond⟩ := he
    cases hk : e.kind <;> simp [hk] at hcond ⊢
  · intro e he hk
    rw [clear_responses]
    simp only [List.mem_filter]
    exact ⟨he, by simp [hk]⟩

/-- Witness for `C5_clear_all`: clearing a state with a file, a symlink
and a subdirectory keeps exactly the subdirectory and empties the
collection. -/
theorem C5_witness :
    load_responses
        (clear_responses ⟨save_responses [⟨"r1", "t0", "", "", "", "", [],
            Option.some "uploads/r1_a.txt", Option.some "a.txt"⟩],
          [Entry.mk "r1_a.txt" EntryKind.file "data",
           Entry.mk "lnk" EntryKind.symlink "",
           Entry.mk "sub" EntryKind.dir ""]⟩).responsesFile = Json.arr [] ∧
    (clear_responses ⟨save_responses [⟨"r1", "t0", "", "", "", "", [],
          Option.some "uploads/r1_a.txt", Option.some "a.txt"⟩],
        [Entry.mk "r1_a.txt" EntryKind.file "data",
         Entry.mk "lnk" EntryKind.symlink "",
         Entry.mk "sub" EntryKind.dir ""]⟩).uploads =
      [Entry.mk "sub" EntryKind.dir ""] := by
  have h := C5_clear_all ⟨save_responses [⟨"r1", "t0", "", "", "", "", [],
      Option.some "uploads/r1_a.txt", Option.some "a.txt"⟩],
    [Entry.mk "r1_a.txt" EntryKind.file "data",
     Entry.mk "lnk" EntryKind.symlink "",
     Entry.mk "sub" EntryKind.dir ""]⟩
  refine ⟨h.1, ?_⟩
  rw [h.2.1]
  rfl

/-- Claim C9: whatever the stored record sequence — duplicated ids
included — the sequence `delete_response` leaves behind contains no record
with the requested id: every match is removed, and the reported flag is
exactly whether any record matched. -/
theorem C9_delete_all_matches (response_id : String) (rs : List Record)
    (fs : FS) (hfile : fs.responsesFile = save_responses rs) :
    load_responses (delete_response response_id fs).1.responsesFile =
      encodeAll (rs.filter (fun r => ¬ r.id = response_id)) ∧
    (delete_response response_id fs).2 =
      Option.some (rs.any (fun r => r.id = response_id)) ∧
    (∀ r ∈ rs.filter (fun r => ¬ r.id = response_id),
      ¬ r.id = response_id) := by
  refine ⟨?_, ?_, ?_⟩ <;>
    [skip; skip;
     (intro r hr; rw [List.mem_filter] at hr; simpa using hr.2)]
  all_goals
    by_cases hany : rs.any (fun r => r.id = response_id) = true
  · simp [delete_response, hfile, save_responses, load_responses, json_load,
      encodeAll, delete_loop_records, hany]
  · rw [Bool.not_eq_true] at hany
    have hfil : rs.filter (fun r => !decide (r.id = response_id)) = rs := by
      apply List.filter_eq_self.mpr
      intro x hx
      simp only [List.any_eq_false, decide_eq_true_eq] at hany
      simp [hany x hx]
    simp [delete_response, hfile, save_responses, load_responses, json_load,
      encodeAll, delete_loop_records, hany, hfil]
  · simp [delete_response, hfile, save_responses, load_responses, json_load,
      encodeAll, delete_loop_records, hany]
  · rw [Bool.not_eq_true] at hany
    simp [delete_response, hfile, save_responses, load_responses, json_load,
      encodeAll, delete_loop_records, hany]

/-- Witness for `C9_delete_all_matches`: a store holding two records with
the same id; deletion removes both. -/
theorem C9_witness :
    load_responses
        (delete_response "r1"
          ⟨save_responses [⟨"r1", "t0", "a", "", "", "", [],
              Option.none, Option.none⟩,
            ⟨"r1", "t1", "b", "", "", "", [], Option.none, Option.none⟩],
            []⟩).1.responsesFile = encodeAll [] :=
  (C9_delete_all_matches "r1"
    [⟨"r1", "t0", "a", "", "", "", [], Option.none, Option.none⟩,
     ⟨"r1", "t1", "b", "", "", "", [], Option.none, Option.none⟩]
    ⟨save_responses [⟨"r1", "t0", "a", "", "", "", [],
        Option.none, Option.none⟩,
      ⟨"r1", "t1", "b", "", "", "", [], Option.none, Option.none⟩], []⟩
    rfl).1

/-- Witness for `C8_upload_write_failure` at a concrete submission. -/
theorem C8_witness :
    index_post "r1" "t0" ⟨"", "", "", "", [], Option.some ⟨"a.txt", "bytes"⟩⟩
        true ⟨FileData.wellFormed (Json.arr []), []⟩ =
      (⟨FileData.wellFormed (Json.arr []), []⟩, false) :=
  C8_upload_write_failure "r1" "t0"
    ⟨"", "", "", "", [], Option.some ⟨"a.txt", "bytes"⟩⟩
    ⟨FileData.wellFormed (Json.arr []), []⟩
    ⟨"a.txt", "bytes"⟩ rfl (by decide)
